import Mathlib

/-!
Verification of the virtualization kernel of the `vtsls` service shims:
the virtual filesystem router (`packages/service/src/shims/fs.ts`), the
cross-realm `FileSystemError` taxonomy (`shims/fileSystemError.ts`), and the
service composition / lifecycle controller (`shims/index.ts`).

Conventions of the shallow embedding:
* a URI is the record of its five components (vscode-uri);
* a JavaScript exception value is modelled as `JSErr` carrying the `name`,
  `message` and optional `code` fields the router inspects;
* the asynchronous router methods are modelled as pure functions; calls to
  backends are either returned values or recorded in an effect trace;
* the unbounded `while` loop of `mkdirp` is modelled with explicit fuel: the
  outcome `diverge` means the loop has not exited within the given fuel — a
  result of `diverge` for every fuel amount means the loop never exits.
-/

set_option autoImplicit false

namespace Vtsls

/-- Resource identifier (vscode-uri `URI`): scheme, authority, path, query,
fragment. Equality is componentwise. -/
structure URI where
  scheme : String
  authority : String
  path : String
  query : String
  fragment : String
  deriving DecidableEq, Repr

/-- JavaScript `s.replace(/\x2f[^\x2f]*$/, "")` (as used for `dirname` in
`mkdirp` and for the parent directory in `writeFile`): remove the final
slash-started component; a string without a slash is returned unchanged. -/
def dropLastComponent (s : String) : String :=
  match s.data.reverse.dropWhile (fun c => c ≠ '/') with
  | [] => s
  | _ :: rest => ⟨rest.reverse⟩

/-- JavaScript `s.split(" ")[0]`: the prefix of `s` up to the first space. -/
def splitFirst (s : String) : String :=
  ⟨s.data.takeWhile (fun c => c ≠ ' ')⟩

/-- `FileType` bit-field constants from `shims/fs.ts`. -/
def FileType.Unknown : Nat := 0

/-- `FileType.File = 1`. -/
def FileType.File : Nat := 1

/-- `FileType.Directory = 2`. -/
def FileType.Directory : Nat := 2

/-- `FileType.SymbolicLink = 64`. -/
def FileType.SymbolicLink : Nat := 64

/-- `FileStat` from `shims/fs.ts`: type bit-field, mtime, ctime, size and
optional permissions. -/
structure FileStat where
  type : Nat
  mtime : Nat
  ctime : Nat
  size : Nat
  permissions : Option Nat
  deriving DecidableEq, Repr

/-- A JavaScript error value as the router observes it: the `name` field
(always present on `Error`), the `message`, and the optional `code` field
(`undefined` is `none`). -/
structure JSErr where
  name : String
  message : String
  code : Option String
  deriving DecidableEq, Repr

/-- `FileSystemProviderErrorCode` string table from `shims/fileSystemError.ts`. -/
def FileSystemProviderErrorCode.FileExists : String := "EntryExists"

/-- `FileNotFound = "EntryNotFound"`. -/
def FileSystemProviderErrorCode.FileNotFound : String := "EntryNotFound"

/-- `FileNotADirectory = "EntryNotADirectory"`. -/
def FileSystemProviderErrorCode.FileNotADirectory : String := "EntryNotADirectory"

/-- `FileIsADirectory = "EntryIsADirectory"`. -/
def FileSystemProviderErrorCode.FileIsADirectory : String := "EntryIsADirectory"

/-- `FileExceedsStorageQuota = "EntryExceedsStorageQuota"`. -/
def FileSystemProviderErrorCode.FileExceedsStorageQuota : String := "EntryExceedsStorageQuota"

/-- `FileTooLarge = "EntryTooLarge"`. -/
def FileSystemProviderErrorCode.FileTooLarge : String := "EntryTooLarge"

/-- `FileWriteLocked = "EntryWriteLocked"`. -/
def FileSystemProviderErrorCode.FileWriteLocked : String := "EntryWriteLocked"

/-- `NoPermissions = "NoPermissions"`. -/
def FileSystemProviderErrorCode.NoPermissions : String := "NoPermissions"

/-- `Unavailable = "Unavailable"`. -/
def FileSystemProviderErrorCode.Unavailable : String := "Unavailable"

/-- `Unknown = "Unknown"`. -/
def FileSystemProviderErrorCode.Unknown : String := "Unknown"

/-- `markAsFileSystemProviderError` from `shims/fileSystemError.ts`: stamp the
error name with the provider error code. -/
def markAsFileSystemProviderError (error : JSErr) (code : String) : JSErr :=
  { error with name := if code ≠ "" then code ++ " (FileSystemError)" else "FileSystemError" }

/-- The `FileSystemError` constructor from `shims/fileSystemError.ts` for a
string message argument: the `code` property of the instance is the name of the
`terminator` static method (or `"Unknown"` when absent), while the `name` field
is stamped from the provider error code by `markAsFileSystemProviderError`. -/
def FileSystemErrorMk (uriOrMessage : String) (code : String) (terminatorName : Option String) : JSErr :=
  markAsFileSystemProviderError
    { name := "Error", message := uriOrMessage, code := some (terminatorName.getD "Unknown") }
    code

/-- Static constructor `FileSystemError.FileExists`. -/
def FileSystemError.FileExists (m : String) : JSErr :=
  FileSystemErrorMk m FileSystemProviderErrorCode.FileExists (some "FileExists")

/-- Static constructor `FileSystemError.FileNotFound`. -/
def FileSystemError.FileNotFound (m : String) : JSErr :=
  FileSystemErrorMk m FileSystemProviderErrorCode.FileNotFound (some "FileNotFound")

/-- Static constructor `FileSystemError.FileNotADirectory`. -/
def FileSystemError.FileNotADirectory (m : String) : JSErr :=
  FileSystemErrorMk m FileSystemProviderErrorCode.FileNotADirectory (some "FileNotADirectory")

/-- Static constructor `FileSystemError.FileIsADirectory`. -/
def FileSystemError.FileIsADirectory (m : String) : JSErr :=
  FileSystemErrorMk m FileSystemProviderErrorCode.FileIsADirectory (some "FileIsADirectory")

/-- Static constructor `FileSystemError.NoPermissions`. -/
def FileSystemError.NoPermissions (m : String) : JSErr :=
  FileSystemErrorMk m FileSystemProviderErrorCode.NoPermissions (some "NoPermissions")

/-- Static constructor `FileSystemError.Unavailable`. -/
def FileSystemError.Unavailable (m : String) : JSErr :=
  FileSystemErrorMk m FileSystemProviderErrorCode.Unavailable (some "Unavailable")

/-- The six canonical static constructors of `createFileSystemErrorClass`,
each paired with the name of the static method (which becomes the `code`
property) and the `FileSystemProviderErrorCode` wire value used for the
`name` label. -/
def canonicalConstructors : List ((String → JSErr) × String × String) :=
  [(FileSystemError.FileExists, "FileExists", "EntryExists"),
   (FileSystemError.FileNotFound, "FileNotFound", "EntryNotFound"),
   (FileSystemError.FileNotADirectory, "FileNotADirectory", "EntryNotADirectory"),
   (FileSystemError.FileIsADirectory, "FileIsADirectory", "EntryIsADirectory"),
   (FileSystemError.NoPermissions, "NoPermissions", "NoPermissions"),
   (FileSystemError.Unavailable, "Unavailable", "Unavailable")]

/-- C3 counterexample: `FileSystemError.FileNotFound "x"` carries the name
label `"EntryNotFound (FileSystemError)"`; splitting that label on the first
space yields `"EntryNotFound"`, which is not equal to the error value's `code`
property `"FileNotFound"`. So the label does not have the form
`"<Code> (FileSystemError)"` for the `code` property, and string inspection of
the label does not recover the `code` property. -/
theorem fileSystemError_label_not_code_property :
    (FileSystemError.FileNotFound "x").name = "EntryNotFound (FileSystemError)" ∧
    splitFirst (FileSystemError.FileNotFound "x").name = "EntryNotFound" ∧
    (FileSystemError.FileNotFound "x").code = some "FileNotFound" ∧
    splitFirst (FileSystemError.FileNotFound "x").name ≠ "FileNotFound" := by
  refine ⟨rfl, by decide, rfl, by decide⟩

/-- C3 (amended): for every canonical constructor, the error's name label has
the exact form `"<WireCode> (FileSystemError)"` where `WireCode` is the
`FileSystemProviderErrorCode` wire value associated with the constructor, and
splitting the label on the first space recovers that wire value; the `code`
property instead holds the constructor's own name, which coincides with the
wire value only for `NoPermissions` and `Unavailable`. -/
theorem fileSystemError_label_recovers_wire_code :
    ∀ c ∈ canonicalConstructors, ∀ msg : String,
      (c.1 msg).name = c.2.2 ++ " (FileSystemError)" ∧
      splitFirst (c.1 msg).name = c.2.2 ∧
      (c.1 msg).code = some c.2.1 := by
  intro c hc msg
  simp only [canonicalConstructors, List.mem_cons, List.not_mem_nil, or_false] at hc
  rcases hc with h | h | h | h | h | h <;> subst h <;>
    exact ⟨rfl, rfl, rfl⟩

/-- C3 witness: the amended theorem applied to the `FileNotFound` constructor
at message `"x"`. -/
theorem fileSystemError_label_recovers_wire_code_witness :
    (FileSystemError.FileNotFound "x").name = "EntryNotFound" ++ " (FileSystemError)" ∧
    splitFirst (FileSystemError.FileNotFound "x").name = "EntryNotFound" ∧
    (FileSystemError.FileNotFound "x").code = some "FileNotFound" :=
  fileSystemError_label_recovers_wire_code
    (FileSystemError.FileNotFound, "FileNotFound", "EntryNotFound")
    (by simp [canonicalConstructors]) "x"

/-- The `_fsProvider` map of `createFileSystemShim`, generic in the stored
provider implementation: a JavaScript `Map` from scheme to
`{ impl, isReadonly }`, modelled as an insertion-ordered association list
(the source only calls `Map.set` on an absent key, so `set` appends). -/
abbrev FsRegistry (α : Type) : Type := List (String × α × Bool)

/-- `Map.has(scheme)`. -/
def regHas {α : Type} (reg : FsRegistry α) (scheme : String) : Bool :=
  reg.any (fun e => e.1 == scheme)

/-- `Map.get(scheme)` returning the `{ impl, isReadonly }` entry when present. -/
def regGet {α : Type} (reg : FsRegistry α) (scheme : String) : Option (α × Bool) :=
  (reg.find? (fun e => e.1 == scheme)).map (fun e => e.2)

/-- `Map.set(scheme, entry)` on a key the source has checked to be absent. -/
def regSet {α : Type} (reg : FsRegistry α) (scheme : String) (entry : α × Bool) : FsRegistry α :=
  reg ++ [(scheme, entry)]

/-- `Map.delete(scheme)`: remove the entry for the scheme, if any. -/
def regDelete {α : Type} (reg : FsRegistry α) (scheme : String) : FsRegistry α :=
  reg.filter (fun e => !(e.1 == scheme))

/-- `_addFileSystemProvider` from `shims/fs.ts`: reject an already-registered
scheme with a plain `Error`; otherwise store `{ impl, isReadonly: !!options?.isReadonly }`
and hand back the disposal handle, which closes over the scheme only. The
returned registry is the (un)changed map; the `options` argument collapses
`options?.isReadonly` into an `Option Bool`. -/
def addFileSystemProvider {α : Type} (reg : FsRegistry α) (scheme : String) (provider : α)
    (options : Option Bool) : FsRegistry α × Except JSErr String :=
  if regHas reg scheme then
    (reg, Except.error
      { name := "Error",
        message := "A provider with scheme " ++ scheme ++ " is already registered",
        code := none })
  else
    (regSet reg scheme (provider, options.getD false), Except.ok scheme)

/-- The `dispose` closure returned by `_addFileSystemProvider`:
`_fsProvider.delete(scheme)` for the captured scheme. -/
def disposeProviderHandle {α : Type} (scheme : String) (reg : FsRegistry α) : FsRegistry α :=
  regDelete reg scheme

/-- `isWritableFileSystem` from `shims/fs.ts`: `undefined` for an unknown
scheme, else the negation of the registration's read-only flag. -/
def isWritableFileSystem {α : Type} (reg : FsRegistry α) (scheme : String) : Option Bool :=
  if !(regHas reg scheme) then none
  else
    match regGet reg scheme with
    | some entry => some (!entry.2)
    | none => none

/-- `withProvider` from `shims/fs.ts`: throw a plain `Error` for a scheme
without a registration, else return `Map.get(scheme)` (which the guard makes
a `some`). -/
def withProvider {α : Type} (reg : FsRegistry α) (scheme : String) :
    Except JSErr (Option (α × Bool)) :=
  if !(regHas reg scheme) then
    Except.error
      { name := "Error", message := "Unsupported URI scheme " ++ scheme, code := none }
  else
    Except.ok (regGet reg scheme)

/-- `fromResource` from `shims/fs.ts` (the path mapper): the reserved bundled
type-declaration asset paths under the extension URI are returned verbatim;
every other identifier maps to the local path `/{scheme}/{authority}{path}`. -/
def fromResource (extensionUri : Option URI) (uri : URI) : String :=
  match extensionUri with
  | some ext =>
    if uri.scheme == ext.scheme && uri.authority == ext.authority
        && uri.path.startsWith (ext.path ++ "/typescript/lib.")
        && uri.path.endsWith ".d.ts" then
      uri.path
    else
      "/" ++ uri.scheme ++ "/" ++ uri.authority ++ uri.path
  | none => "/" ++ uri.scheme ++ "/" ++ uri.authority ++ uri.path

/-- A registered backend (`vscode.FileSystemProvider`) as the router uses it:
`readFile`, `writeFile` (with the create and overwrite flags), `stat` and
`createDirectory`; each either returns or throws. -/
structure FsProvider where
  readFile : URI → Except JSErr (List Nat)
  writeFile : URI → List Nat → Bool → Bool → Except JSErr Unit
  stat : URI → Except JSErr FileStat
  createDirectory : URI → Except JSErr Unit

/-- `readFile` from `shims/fs.ts`: dispatch through `withProvider`; with a
provider entry, return the provider's bytes (`.slice()` is a defensive copy,
the identity on immutable byte lists); with no entry value, read the local
disk at the resolved path (`localRead` stands for `fsPromises.readFile`). -/
def readFile (reg : FsRegistry FsProvider) (localRead : String → Except JSErr (List Nat))
    (extensionUri : Option URI) (uri : URI) : Except JSErr (List Nat) :=
  match withProvider reg uri.scheme with
  | Except.error e => Except.error e
  | Except.ok provider =>
    match provider with
    | some p => p.1.readFile uri
    | none => localRead (fromResource extensionUri uri)

/-- On a scheme present in the registry, `regGet` yields the stored entry. -/
theorem regGet_of_mem {α : Type} (reg : FsRegistry α) (scheme : String) (entry : α × Bool)
    (h : (reg.find? (fun e => e.1 == scheme)) = some (scheme, entry)) :
    regGet reg scheme = some entry := by
  simp [regGet, h]

/-- `find?` succeeding implies `any` holds for the same predicate. -/
theorem regHas_of_regGet {α : Type} (reg : FsRegistry α) (scheme : String)
    (h : (regGet reg scheme).isSome) : regHas reg scheme = true := by
  unfold regGet at h
  unfold regHas
  cases hf : reg.find? (fun e => e.1 == scheme) with
  | none => rw [hf] at h; simp at h
  | some a =>
    have hmem := List.mem_of_find?_eq_some hf
    have hp := List.find?_some hf
    exact List.any_eq_true.mpr ⟨a, hmem, hp⟩

/-- C4: `readFile` on a URI whose scheme has no registered provider throws the
scheme-dispatch error `Error("Unsupported URI scheme <scheme>")` from
`withProvider`; the local-disk fallback branch is never reached. This
contradicts the claim that such a read returns the bytes at the resolved
local-disk path. -/
theorem readFile_unregistered_scheme_throws
    (reg : FsRegistry FsProvider) (localRead : String → Except JSErr (List Nat))
    (extensionUri : Option URI) (uri : URI)
    (h : regHas reg uri.scheme = false) :
    readFile reg localRead extensionUri uri =
      Except.error
        { name := "Error", message := "Unsupported URI scheme " ++ uri.scheme, code := none } := by
  unfold readFile withProvider
  rw [h]
  rfl

/-- C4 witness: on an empty registry, reading `file:///etc/hosts` produces
the scheme-dispatch error rather than the local bytes that `localRead`
would return at the resolved path. -/
theorem readFile_unregistered_scheme_throws_witness :
    readFile ([] : FsRegistry FsProvider) (fun _ => Except.ok [104])
        none ⟨"file", "", "/etc/hosts", "", ""⟩ =
      Except.error
        { name := "Error", message := "Unsupported URI scheme " ++ "file", code := none } :=
  readFile_unregistered_scheme_throws [] (fun _ => Except.ok [104])
    none ⟨"file", "", "/etc/hosts", "", ""⟩ rfl

/-- Deleting a scheme that is not in the registry leaves it unchanged. -/
theorem regDelete_eq_self_of_not_has {α : Type} (reg : FsRegistry α) (s : String)
    (h : regHas reg s = false) : regDelete reg s = reg := by
  unfold regDelete
  apply List.filter_eq_self.mpr
  intro e he
  cases hb : (e.1 == s) with
  | true =>
    have : regHas reg s = true := List.any_eq_true.mpr ⟨e, he, hb⟩
    rw [this] at h
    exact absurd h (by simp)
  | false => simp [hb]

/-- Deleting a scheme is idempotent. -/
theorem regDelete_idem {α : Type} (reg : FsRegistry α) (s : String) :
    regDelete (regDelete reg s) s = regDelete reg s := by
  unfold regDelete
  apply List.filter_eq_self.mpr
  intro e he
  exact List.of_mem_filter (p := fun x : String × α × Bool => !(x.1 == s)) he

/-- Deleting a scheme removes a just-appended entry for that scheme. -/
theorem regDelete_append_single_self {α : Type} (reg : FsRegistry α) (s : String)
    (p : α) (b : Bool) :
    regDelete (reg ++ [(s, p, b)]) s = regDelete reg s := by
  unfold regDelete
  rw [List.filter_append]
  simp

/-- C8 counterexample: the disposal handle returned by a registration closes
over the scheme only. After `register("m", impl 1)`, disposing, and registering
a different provider `impl 2` for the same scheme, invoking the first handle a
second time removes the second registration — it is not a no-op even though
the first handle's entry was already removed. -/
theorem disposeProviderHandle_stale_not_noop :
    addFileSystemProvider ([] : FsRegistry Nat) "m" 1 none =
        ([("m", 1, false)], Except.ok "m") ∧
    disposeProviderHandle "m" [("m", (1 : Nat), false)] = [] ∧
    addFileSystemProvider ([] : FsRegistry Nat) "m" 2 none =
        ([("m", 2, false)], Except.ok "m") ∧
    disposeProviderHandle "m" [("m", (2 : Nat), false)] = [] ∧
    [("m", (2 : Nat), false)] ≠ ([] : FsRegistry Nat) := by
  refine ⟨rfl, by decide, rfl, by decide, by decide⟩

/-- C8 (amended): registering a provider for an already-registered scheme
fails with a plain `Error` (its name is `"Error"`, not a `FileSystemError`
label, and it has no `code` field) and leaves the registry unchanged. For a
fresh scheme the registration succeeds and returns a handle; invoking the
handle removes exactly the new entry (restoring the previous registry), and
invoking it again with no intervening registration for that scheme is a
no-op. (If the scheme is re-registered in between, the stale handle removes
the later registration — see the counterexample.) -/
theorem addFileSystemProvider_spec {α : Type} (reg : FsRegistry α) (scheme : String)
    (provider : α) (options : Option Bool) :
    (regHas reg scheme = true →
      addFileSystemProvider reg scheme provider options =
        (reg, Except.error
          { name := "Error",
            message := "A provider with scheme " ++ scheme ++ " is already registered",
            code := none })) ∧
    (regHas reg scheme = false →
      (addFileSystemProvider reg scheme provider options).2 = Except.ok scheme ∧
      disposeProviderHandle scheme (addFileSystemProvider reg scheme provider options).1 = reg ∧
      disposeProviderHandle scheme
          (disposeProviderHandle scheme (addFileSystemProvider reg scheme provider options).1) =
        disposeProviderHandle scheme (addFileSystemProvider reg scheme provider options).1) := by
  constructor
  · intro h
    simp [addFileSystemProvider, h]
  · intro h
    have h1 : (addFileSystemProvider reg scheme provider options).1 =
        regSet reg scheme (provider, options.getD false) := by
      simp [addFileSystemProvider, h]
    have h2 : (addFileSystemProvider reg scheme provider options).2 = Except.ok scheme := by
      simp [addFileSystemProvider, h]
    refine ⟨h2, ?_, ?_⟩
    · rw [h1]
      show regDelete (regSet reg scheme (provider, options.getD false)) scheme = reg
      unfold regSet
      rw [regDelete_append_single_self]
      exact regDelete_eq_self_of_not_has reg scheme h
    · rw [h1]
      exact regDelete_idem _ _

/-- C8 witness: the amended theorem applied to an empty registry and scheme
`"m"`, with the freshness hypothesis discharged by computation. -/
theorem addFileSystemProvider_spec_witness :
    (addFileSystemProvider ([] : FsRegistry Nat) "m" 1 none).2 = Except.ok "m" ∧
    disposeProviderHandle "m" (addFileSystemProvider ([] : FsRegistry Nat) "m" 1 none).1 = [] ∧
    disposeProviderHandle "m"
        (disposeProviderHandle "m" (addFileSystemProvider ([] : FsRegistry Nat) "m" 1 none).1) =
      disposeProviderHandle "m" (addFileSystemProvider ([] : FsRegistry Nat) "m" 1 none).1 :=
  (addFileSystemProvider_spec ([] : FsRegistry Nat) "m" 1 none).2 rfl

/-- The `dirname` helper inside `mkdirp`:
`URI.from({...u, path: u.path.replace(/\x2f[^\x2f]*$/, "")})`. -/
def mkdirpDirname (u : URI) : URI :=
  { u with path := dropLastComponent u.path }

/-- The `FileNotFound` test in the walk's catch block:
`err?.code === FileSystemProviderErrorCode.FileNotFound` or the fallback
string-prefix check `((err?.name ?? "") as string).split(" ")[0]` against the
same code (some backends do not share the canonical error construction). -/
def isFileNotFoundErr (e : JSErr) : Bool :=
  e.code == some FileSystemProviderErrorCode.FileNotFound ||
    splitFirst e.name == FileSystemProviderErrorCode.FileNotFound

/-- The `FileExists` test in the creation loop's catch block, built the same
way from code and name label. -/
def isFileExistsErr (e : JSErr) : Bool :=
  e.code == some FileSystemProviderErrorCode.FileExists ||
    splitFirst e.name == FileSystemProviderErrorCode.FileExists

/-- `uri.fsPath` for the POSIX host this service targets: the URI path
(vscode-uri `uriToFsPath` without Windows drive-letter or UNC handling). -/
def fsPath (u : URI) : String := u.path

/-- `uri.toString(true)` (skip encoding): the vscode-uri string form with the
components concatenated unencoded. -/
def uriToString (u : URI) : String :=
  u.scheme ++ ":" ++
    (if u.authority ≠ "" || u.scheme == "file" then "//" ++ u.authority else "") ++
    u.path ++
    (if u.query ≠ "" then "?" ++ u.query else "") ++
    (if u.fragment ≠ "" then "#" ++ u.fragment else "")

/-- The error thrown by the walk when an ancestor exists but lacks the
directory bit: `FileSystemError.FileExists` with the human-readable path
(local filesystem path when the scheme is `file`, else the URI string form). -/
def mkdirpExistsError (directory : URI) : JSErr :=
  FileSystemError.FileExists
    ("Unable to create folder \x27" ++
      (if directory.scheme == "file" then fsPath directory else uriToString directory) ++
      "\x27 that already exists but is not a directory")

/-- Outcome of the ancestor walk of `mkdirp`: the recorded `toCreate` list on
normal exit, a thrown error, or `diverge` when the `while` loop has not exited
within the given fuel. -/
inductive MkdirpOutcome where
  | ok : List URI → MkdirpOutcome
  | err : JSErr → MkdirpOutcome
  | diverge : MkdirpOutcome
  deriving DecidableEq, Repr

/-- The ancestor walk of `mkdirp` (`while (pat != "/") { ... }`): `pat` is the
target's own path and is never reassigned in the loop; `directory` starts at
the target's parent and moves to its `dirname` each iteration; every ancestor
whose `stat` fails the `FileNotFound` test is recorded (with a trailing slash
appended) in `toCreate`. An ancestor that stats without the directory bit
raises `FileSystemError.FileExists`, which the catch block re-raises because
it does not pass the `FileNotFound` test. -/
def mkdirpWalk (stat : URI → Except JSErr FileStat) (pat : String) :
    Nat → URI → List URI → MkdirpOutcome
  | 0, _, toCreate =>
    if pat == "/" then MkdirpOutcome.ok toCreate else MkdirpOutcome.diverge
  | fuel + 1, directory, toCreate =>
    if pat == "/" then MkdirpOutcome.ok toCreate
    else
      let attempt : Except JSErr (List URI) :=
        match stat directory with
        | Except.ok st =>
          if st.type &&& FileType.Directory == 0 then
            Except.error (mkdirpExistsError directory)
          else
            Except.ok toCreate
        | Except.error e => Except.error e
      match attempt with
      | Except.ok tc => MkdirpOutcome.ok tc
      | Except.error e =>
        if isFileNotFoundErr e then
          mkdirpWalk stat pat fuel (mkdirpDirname directory)
            (toCreate ++ [{ directory with path := directory.path ++ "/" }])
        else
          MkdirpOutcome.err e

/-- The creation loop of `mkdirp` applied to the processing order
(`for (let i = toCreate.length - 1; i >= 0; i--)`, i.e. the reverse of the
recorded list): each `createDirectory` failure passing the `FileExists` test
is swallowed, any other failure is re-raised. Returns the list of
`createDirectory` calls actually made, in order, with the final result. -/
def mkdirpCreateLoop (createDirectory : URI → Except JSErr Unit) :
    List URI → List URI × Except JSErr Unit
  | [] => ([], Except.ok ())
  | u :: rest =>
    match createDirectory u with
    | Except.ok _ =>
      let r := mkdirpCreateLoop createDirectory rest
      (u :: r.1, r.2)
    | Except.error e =>
      if isFileExistsErr e then
        let r := mkdirpCreateLoop createDirectory rest
        (u :: r.1, r.2)
      else
        ([u], Except.error e)

/-- Result of a full `mkdirp` run. -/
inductive MkdirpResult where
  | ok : MkdirpResult
  | err : JSErr → MkdirpResult
  | diverge : MkdirpResult
  deriving DecidableEq, Repr

/-- `mkdirp` from `shims/fs.ts`: run the ancestor walk from the target's
parent, then run the creation loop over the recorded ancestors from the
topmost (last recorded) to the bottommost (first recorded). Returns the
`createDirectory` calls made and the result. -/
def mkdirp (stat : URI → Except JSErr FileStat) (createDirectory : URI → Except JSErr Unit)
    (uri : URI) (fuel : Nat) : List URI × MkdirpResult :=
  match mkdirpWalk stat uri.path fuel (mkdirpDirname uri) [] with
  | MkdirpOutcome.ok toCreate =>
    let r := mkdirpCreateLoop createDirectory toCreate.reverse
    (r.1, match r.2 with
          | Except.ok _ => MkdirpResult.ok
          | Except.error e => MkdirpResult.err e)
  | MkdirpOutcome.err e => ([], MkdirpResult.err e)
  | MkdirpOutcome.diverge => ([], MkdirpResult.diverge)

/-- A backend whose `stat` fails with the canonical `FileNotFound` error on
every identifier (for example an empty backend that has not even created its
root). -/
def statAlwaysNotFound : URI → Except JSErr FileStat :=
  fun _ => Except.error (FileSystemError.FileNotFound "missing")

/-- Under `statAlwaysNotFound` and target path `"/a/f"`, the walk consumes any
amount of fuel without exiting: the loop guard compares the constant target
path `pat` (never the moving `directory`) against `"/"`, so no iteration count
makes it exit. -/
theorem mkdirpWalk_allNotFound_diverges :
    ∀ (fuel : Nat) (directory : URI) (toCreate : List URI),
      mkdirpWalk statAlwaysNotFound "/a/f" fuel directory toCreate = MkdirpOutcome.diverge := by
  intro fuel
  induction fuel with
  | zero =>
    intro d tc
    have hpat : ("/a/f" == "/") = false := by decide
    simp [mkdirpWalk, hpat]
  | succ n ih =>
    intro d tc
    have hpat : ("/a/f" == "/") = false := by decide
    have hfnf : isFileNotFoundErr (FileSystemError.FileNotFound "missing") = true := by decide
    simp [mkdirpWalk, hpat, statAlwaysNotFound, hfnf, ih]

/-- C5: the claim that the `mkdirp` walk terminates fails on the code. For the
target `memfs:/a/f` and a backend whose `stat` fails with `FileNotFound` on
every ancestor (all the way to the root), the walk never stops: for every
fuel amount the loop is still running, because the guard
`while (pat != "/")` tests the constant target path instead of the walked
`directory`; the walk never observes that it reached the root. -/
theorem mkdirp_all_missing_never_terminates :
    ∀ (createDirectory : URI → Except JSErr Unit) (fuel : Nat),
      mkdirp statAlwaysNotFound createDirectory ⟨"memfs", "", "/a/f", "", ""⟩ fuel =
        ([], MkdirpResult.diverge) := by
  intro cd fuel
  simp [mkdirp, mkdirpWalk_allNotFound_diverges]

/-- C10: an ancestor whose stat type has the `Directory` bit set together with
the `SymbolicLink` bit (a symbolic link to a directory) passes the bitwise
test `(stat.type & FileType.Directory) != 0`, so the walk stops there
successfully: `mkdirp` performs no creations and succeeds. -/
theorem mkdirp_symlink_directory_stops_walk
    (stat : URI → Except JSErr FileStat) (createDirectory : URI → Except JSErr Unit)
    (uri : URI) (st : FileStat) (fuel : Nat)
    (h1 : stat (mkdirpDirname uri) = Except.ok st)
    (h2 : st.type = FileType.Directory ||| FileType.SymbolicLink) :
    mkdirp stat createDirectory uri (fuel + 1) = ([], MkdirpResult.ok) := by
  unfold mkdirp
  cases hpat : (uri.path == "/") with
  | true => simp [mkdirpWalk, hpat, mkdirpCreateLoop]
  | false =>
    have hbit : (st.type &&& FileType.Directory == 0) = false := by
      rw [h2]; decide
    simp [mkdirpWalk, hpat, h1, hbit, mkdirpCreateLoop]

/-- C10 witness: a backend stat reporting `Directory | SymbolicLink` (= 66)
on the parent of `memfs:/a/f` makes `mkdirp` succeed without creations. -/
theorem mkdirp_symlink_directory_stops_walk_witness :
    mkdirp (fun _ => Except.ok ⟨66, 0, 0, 0, none⟩) (fun _ => Except.ok ())
        ⟨"memfs", "", "/a/f", "", ""⟩ 3 = ([], MkdirpResult.ok) :=
  mkdirp_symlink_directory_stops_walk (fun _ => Except.ok ⟨66, 0, 0, 0, none⟩)
    (fun _ => Except.ok ()) ⟨"memfs", "", "/a/f", "", ""⟩ ⟨66, 0, 0, 0, none⟩ 2 rfl (by decide)

/-- Iterated `dirname`: the chain of ancestors the walk visits. -/
def iterDirname (dir : URI) : Nat → URI
  | 0 => dir
  | k + 1 => iterDirname (mkdirpDirname dir) k

/-- The `FileExists` error the walk synthesizes never passes the
`FileNotFound` test of the catch block, so it is re-raised. -/
theorem isFileNotFoundErr_mkdirpExistsError (d : URI) :
    isFileNotFoundErr (mkdirpExistsError d) = false := rfl

/-- If the first `k` ancestors starting at `directory` stat as `FileNotFound`
and the next one stats successfully without the directory bit, the walk
re-raises the synthesized `FileSystemError.FileExists` for that ancestor,
whatever was recorded so far. -/
theorem mkdirpWalk_nondir_ancestor :
    ∀ (k : Nat) (stat : URI → Except JSErr FileStat) (pat : String) (directory : URI)
      (toCreate : List URI) (fuel : Nat) (st : FileStat),
      (pat == "/") = false →
      (∀ i, i < k → ∃ e, stat (iterDirname directory i) = Except.error e ∧
        isFileNotFoundErr e = true) →
      stat (iterDirname directory k) = Except.ok st →
      (st.type &&& FileType.Directory == 0) = true →
      k < fuel →
      mkdirpWalk stat pat fuel directory toCreate =
        MkdirpOutcome.err (mkdirpExistsError (iterDirname directory k)) := by
  intro k
  induction k with
  | zero =>
    intro stat pat d tc fuel st hpat _ hstat hnd hfuel
    obtain ⟨m, rfl⟩ : ∃ m, fuel = m + 1 := ⟨fuel - 1, by omega⟩
    have hstat0 : stat d = Except.ok st := hstat
    simp [mkdirpWalk, hpat, hstat0, hnd, isFileNotFoundErr_mkdirpExistsError, iterDirname]
  | succ k ih =>
    intro stat pat d tc fuel st hpat hmiss hstat hnd hfuel
    obtain ⟨m, rfl⟩ : ∃ m, fuel = m + 1 := ⟨fuel - 1, by omega⟩
    obtain ⟨e, he, hfnf⟩ := hmiss 0 (Nat.succ_pos k)
    have he0 : stat d = Except.error e := he
    have hmiss2 : ∀ i, i < k → ∃ e2, stat (iterDirname (mkdirpDirname d) i) = Except.error e2 ∧
        isFileNotFoundErr e2 = true := by
      intro i hi
      exact hmiss (i + 1) (Nat.succ_lt_succ hi)
    have hrec := ih stat pat (mkdirpDirname d)
      (tc ++ [{ d with path := d.path ++ "/" }]) m st hpat hmiss2 hstat hnd (by omega)
    simp [mkdirpWalk, hpat, he0, hfnf, hrec, iterDirname]

/-- C7: if some ancestor of the target stats successfully but without the
`Directory` bit (all deeper ancestors statting `FileNotFound`), `mkdirp`
fails with the synthesized `FileSystemError.FileExists` — whose `code`
property is `"FileExists"`, not `"FileNotADirectory"` — and performs no
`createDirectory` call at all (in particular none below that ancestor). -/
theorem mkdirp_nondir_ancestor_fails_fileExists
    (stat : URI → Except JSErr FileStat) (createDirectory : URI → Except JSErr Unit)
    (uri : URI) (k : Nat) (st : FileStat) (fuel : Nat)
    (hpat : (uri.path == "/") = false)
    (hmiss : ∀ i, i < k → ∃ e, stat (iterDirname (mkdirpDirname uri) i) = Except.error e ∧
      isFileNotFoundErr e = true)
    (hstat : stat (iterDirname (mkdirpDirname uri) k) = Except.ok st)
    (hnd : (st.type &&& FileType.Directory == 0) = true)
    (hfuel : k < fuel) :
    mkdirp stat createDirectory uri fuel =
      ([], MkdirpResult.err (mkdirpExistsError (iterDirname (mkdirpDirname uri) k))) ∧
    (mkdirpExistsError (iterDirname (mkdirpDirname uri) k)).code = some "FileExists" := by
  constructor
  · unfold mkdirp
    rw [mkdirpWalk_nondir_ancestor k stat uri.path (mkdirpDirname uri) [] fuel st
      hpat hmiss hstat hnd hfuel]
  · rfl

/-- A backend where `/a` is a plain file and everything else is missing. -/
def statPlainFileAncestor : URI → Except JSErr FileStat := fun u =>
  if u.path == "/a" then Except.ok ⟨FileType.File, 0, 0, 0, none⟩
  else Except.error (FileSystemError.FileNotFound "nope")

/-- C7 witness: writing towards `memfs:/a/b/f` where `/a` is a plain file:
`mkdirp` makes no `createDirectory` call and fails with the `FileExists`
coded error for `/a`. -/
theorem mkdirp_nondir_ancestor_fails_fileExists_witness :
    mkdirp statPlainFileAncestor (fun _ => Except.ok ()) ⟨"memfs", "", "/a/b/f", "", ""⟩ 5 =
      ([], MkdirpResult.err
        (mkdirpExistsError (iterDirname (mkdirpDirname ⟨"memfs", "", "/a/b/f", "", ""⟩) 1))) ∧
    (mkdirpExistsError (iterDirname (mkdirpDirname ⟨"memfs", "", "/a/b/f", "", ""⟩) 1)).code =
      some "FileExists" :=
  mkdirp_nondir_ancestor_fails_fileExists statPlainFileAncestor (fun _ => Except.ok ())
    ⟨"memfs", "", "/a/b/f", "", ""⟩ 1 ⟨FileType.File, 0, 0, 0, none⟩ 5 (by decide)
    (by
      intro i hi
      have hz : i = 0 := by omega
      subst hz
      exact ⟨FileSystemError.FileNotFound "nope", rfl, by decide⟩)
    rfl (by decide) (by omega)

/-- A `createDirectory` outcome the creation loop tolerates: success, or a
failure passing the `FileExists` test. -/
def cdOkOrExists (createDirectory : URI → Except JSErr Unit) (u : URI) : Prop :=
  createDirectory u = Except.ok () ∨
    ∃ e, createDirectory u = Except.error e ∧ isFileExistsErr e = true

/-- When every outcome on the list is tolerated, the creation loop calls
`createDirectory` on each element once, in list order, and succeeds. -/
theorem mkdirpCreateLoop_all_tolerated (createDirectory : URI → Except JSErr Unit) :
    ∀ l : List URI, (∀ u ∈ l, cdOkOrExists createDirectory u) →
      mkdirpCreateLoop createDirectory l = (l, Except.ok ()) := by
  intro l
  induction l with
  | nil => intro _; rfl
  | cons u rest ih =>
    intro h
    have hu := h u (List.mem_cons_self u rest)
    have hrest : ∀ v ∈ rest, cdOkOrExists createDirectory v :=
      fun v hv => h v (List.mem_cons_of_mem u hv)
    rcases hu with hok | ⟨e, he, hex⟩
    · simp [mkdirpCreateLoop, hok, ih hrest]
    · simp [mkdirpCreateLoop, he, hex, ih hrest]

/-- When the first intolerable failure sits after a tolerated prefix, the loop
calls exactly the prefix and the failing element, then aborts with that
error. -/
theorem mkdirpCreateLoop_abort (createDirectory : URI → Except JSErr Unit) :
    ∀ (pre : List URI) (u : URI) (e : JSErr) (post : List URI),
      (∀ v ∈ pre, cdOkOrExists createDirectory v) →
      createDirectory u = Except.error e → isFileExistsErr e = false →
      mkdirpCreateLoop createDirectory (pre ++ u :: post) = (pre ++ [u], Except.error e) := by
  intro pre
  induction pre with
  | nil =>
    intro u e post _ hu hne
    simp [mkdirpCreateLoop, hu, hne]
  | cons v vs ih =>
    intro u e post h hu hne
    have hv := h v (List.mem_cons_self v vs)
    have hvs : ∀ w ∈ vs, cdOkOrExists createDirectory w :=
      fun w hw => h w (List.mem_cons_of_mem v hw)
    rcases hv with hok | ⟨e2, he2, hex2⟩
    · simp [mkdirpCreateLoop, hok, ih u e post hvs hu hne]
    · simp [mkdirpCreateLoop, he2, hex2, ih u e post hvs hu hne]

/-- C6: the creation phase of `mkdirp` processes the recorded ancestors in
reverse recording order — from the topmost (recorded last, closest to the
root) down to the bottommost — calling `createDirectory` on each exactly
once; an individual failure passing the `FileExists` test is treated as
success, while the first failure with a different code aborts the phase with
that error (the remaining ancestors are not created). -/
theorem mkdirp_creation_phase_spec (createDirectory : URI → Except JSErr Unit)
    (toCreate : List URI) :
    ((∀ u ∈ toCreate, cdOkOrExists createDirectory u) →
      mkdirpCreateLoop createDirectory toCreate.reverse = (toCreate.reverse, Except.ok ())) ∧
    (∀ (pre : List URI) (u : URI) (e : JSErr) (post : List URI),
      toCreate.reverse = pre ++ u :: post →
      (∀ v ∈ pre, cdOkOrExists createDirectory v) →
      createDirectory u = Except.error e → isFileExistsErr e = false →
      mkdirpCreateLoop createDirectory toCreate.reverse = (pre ++ [u], Except.error e)) := by
  constructor
  · intro h
    exact mkdirpCreateLoop_all_tolerated createDirectory toCreate.reverse
      (fun u hu => h u (List.mem_reverse.mp hu))
  · intro pre u e post hsplit hpre hu hne
    rw [hsplit]
    exact mkdirpCreateLoop_abort createDirectory pre u e post hpre hu hne

/-- C6 witness: with a backend whose `createDirectory` always succeeds and the
recorded list `[/a/b/, /a/]` (deepest first, as the walk records), the phase
creates `/a/` then `/a/b/` — topmost first, each once — and succeeds. -/
theorem mkdirp_creation_phase_spec_witness :
    mkdirpCreateLoop (fun _ => Except.ok ())
        [⟨"memfs", "", "/a/", "", ""⟩, ⟨"memfs", "", "/a/b/", "", ""⟩] =
      ([⟨"memfs", "", "/a/", "", ""⟩, ⟨"memfs", "", "/a/b/", "", ""⟩], Except.ok ()) :=
  (mkdirp_creation_phase_spec (fun _ => Except.ok ())
      [⟨"memfs", "", "/a/b/", "", ""⟩, ⟨"memfs", "", "/a/", "", ""⟩]).1
    (fun _ _ => Or.inl rfl)

/-- The storage operations a `writeFile` call attempts, in order: backend
`createDirectory` calls made by `mkdirp`, the backend `writeFile` call, and
the local-disk `fsPromises.mkdir({recursive: true})` / `fsPromises.writeFile`
calls of the fallback tail. Local-disk I/O is modelled by its trace entry
(the claims concern which operations are attempted, not the disk state). -/
inductive FsEffect where
  | backendCreateDirectory : URI → FsEffect
  | backendWriteFile : URI → List Nat → FsEffect
  | localMkdirRecursive : String → FsEffect
  | localWriteFile : String → List Nat → FsEffect
  deriving DecidableEq, Repr

/-- The shared local-disk tail of `writeFile` in `shims/fs.ts`: resolve the
path, create the parent directories recursively, write the content. -/
def writeFileLocal (extensionUri : Option URI) (uri : URI) (content : List Nat) :
    List FsEffect × MkdirpResult :=
  let pat := fromResource extensionUri uri
  ([FsEffect.localMkdirRecursive (dropLastComponent pat),
    FsEffect.localWriteFile pat content], MkdirpResult.ok)

/-- `writeFile` from `shims/fs.ts`: dispatch through `withProvider`; when a
provider entry exists and is not read-only, run `mkdirp` against it and then
the provider's `writeFile` with `{create: true, overwrite: true}`; in every
other case fall through to the local-disk tail. Returns the trace of storage
operations attempted together with the result. -/
def writeFile (reg : FsRegistry FsProvider) (extensionUri : Option URI) (uri : URI)
    (content : List Nat) (fuel : Nat) : List FsEffect × MkdirpResult :=
  match withProvider reg uri.scheme with
  | Except.error e => ([], MkdirpResult.err e)
  | Except.ok provider =>
    match provider with
    | some p =>
      if !p.2 then
        let m := mkdirp p.1.stat p.1.createDirectory uri fuel
        match m.2 with
        | MkdirpResult.ok =>
          match p.1.writeFile uri content true true with
          | Except.ok _ =>
            (m.1.map FsEffect.backendCreateDirectory ++ [FsEffect.backendWriteFile uri content],
              MkdirpResult.ok)
          | Except.error e =>
            (m.1.map FsEffect.backendCreateDirectory, MkdirpResult.err e)
        | r => (m.1.map FsEffect.backendCreateDirectory, r)
      else
        writeFileLocal extensionUri uri content
    | none => writeFileLocal extensionUri uri content

/-- A probe backend for a read-only registration; its own `writeFile` would
succeed if it were ever invoked. -/
def readonlyProbeProvider : FsProvider where
  readFile := fun _ => Except.ok []
  writeFile := fun _ _ _ _ => Except.ok ()
  stat := fun _ => Except.ok ⟨FileType.Directory, 0, 0, 0, none⟩
  createDirectory := fun _ => Except.ok ()

/-- A registry in which scheme `mem` is registered read-only. -/
def regReadonlyMem : FsRegistry FsProvider := [("mem", readonlyProbeProvider, true)]

/-- C1 counterexample: writing `mem:/d/f.txt` through the read-only-registered
scheme `mem` does not fail at all — the result is `ok`, not a
`FileSystemError` with code `NoPermissions` — and while the backend's
`writeFile` is indeed never invoked, the content is written to local disk at
the resolved path `/mem//d/f.txt` (the write does reach other storage). -/
theorem writeFile_readonly_scheme_writes_local_disk :
    writeFile regReadonlyMem none ⟨"mem", "", "/d/f.txt", "", ""⟩ [1, 2] 8 =
      ([FsEffect.localMkdirRecursive "/mem//d",
        FsEffect.localWriteFile "/mem//d/f.txt" [1, 2]], MkdirpResult.ok) := by
  decide

/-- C1 (amended): for every URI whose scheme is registered with a read-only
provider, `writeFile` never invokes the backend's `writeFile` (no backend
effect appears in the trace), but instead of failing with `NoPermissions` it
falls through to the local-disk tail: it recursively creates the parent of
the resolved local path and writes the content there, succeeding. -/
theorem writeFile_readonly_scheme_spec (reg : FsRegistry FsProvider)
    (extensionUri : Option URI) (uri : URI) (content : List Nat) (fuel : Nat) (p : FsProvider)
    (h : regGet reg uri.scheme = some (p, true)) :
    writeFile reg extensionUri uri content fuel =
      ([FsEffect.localMkdirRecursive (dropLastComponent (fromResource extensionUri uri)),
        FsEffect.localWriteFile (fromResource extensionUri uri) content], MkdirpResult.ok) ∧
    ∀ (u : URI) (c : List Nat),
      FsEffect.backendWriteFile u c ∉ (writeFile reg extensionUri uri content fuel).1 := by
  have hhas : regHas reg uri.scheme = true :=
    regHas_of_regGet reg uri.scheme (by rw [h]; rfl)
  have heq : writeFile reg extensionUri uri content fuel =
      writeFileLocal extensionUri uri content := by
    unfold writeFile withProvider
    rw [hhas, h]
    rfl
  constructor
  · rw [heq]
    rfl
  · intro u c
    rw [heq]
    simp [writeFileLocal]

/-- C1 witness: the amended theorem applied to the read-only `mem`
registration at `mem:/d/f.txt`. -/
theorem writeFile_readonly_scheme_spec_witness :
    writeFile regReadonlyMem none ⟨"mem", "", "/d/f.txt", "", ""⟩ [1, 2] 8 =
      ([FsEffect.localMkdirRecursive "/mem//d",
        FsEffect.localWriteFile "/mem//d/f.txt" [1, 2]], MkdirpResult.ok) ∧
    ∀ (u : URI) (c : List Nat),
      FsEffect.backendWriteFile u c ∉
        (writeFile regReadonlyMem none ⟨"mem", "", "/d/f.txt", "", ""⟩ [1, 2] 8).1 :=
  writeFile_readonly_scheme_spec regReadonlyMem none ⟨"mem", "", "/d/f.txt", "", ""⟩ [1, 2] 8
    readonlyProbeProvider rfl

/-- One step of the `dispose` closure of `initializeShimServices`
(`shims/index.ts`), in its fixed order: the five service disposals, then each
context subscription (by position), then each filesystem-provider disposal
handle (by position). -/
inductive DisposeStep where
  | configuration : DisposeStep
  | languageFeatures : DisposeStep
  | commands : DisposeStep
  | workspace : DisposeStep
  | window : DisposeStep
  | subscription : Nat → DisposeStep
  | fsProviderDisposable : Nat → DisposeStep
  deriving DecidableEq, Repr

/-- The outcome each individual disposal call would have if invoked: the five
service `dispose()` calls, the `dispose()` of each context subscription and of
each recorded filesystem-provider registration. -/
structure DisposeBehavior where
  configuration : Except JSErr Unit
  languageFeatures : Except JSErr Unit
  commands : Except JSErr Unit
  workspace : Except JSErr Unit
  window : Except JSErr Unit
  subscriptions : List (Except JSErr Unit)
  fsProviderDisposables : List (Except JSErr Unit)

/-- A `forEach` over disposal outcomes: JavaScript `forEach` propagates an
exception thrown by the callback, aborting the iteration. Returns the steps
invoked (tagged from index `i`) and the result. -/
def runForEach (tag : Nat → DisposeStep) : List (Except JSErr Unit) → Nat →
    List DisposeStep × Except JSErr Unit
  | [], _ => ([], Except.ok ())
  | o :: rest, i =>
    match o with
    | Except.ok _ =>
      let r := runForEach tag rest (i + 1)
      (tag i :: r.1, r.2)
    | Except.error e => ([tag i], Except.error e)

/-- The `dispose` closure of `initializeShimServices`: five sequential
`dispose()` calls, then `context.subscriptions.forEach`, then
`FsProviderDisposables.forEach`. There is no `try`/`catch`: an exception
thrown by any call propagates immediately. Returns the steps actually
invoked, in order, and the result. -/
def runDispose (b : DisposeBehavior) : List DisposeStep × Except JSErr Unit :=
  match b.configuration with
  | Except.error e => ([DisposeStep.configuration], Except.error e)
  | Except.ok _ =>
    match b.languageFeatures with
    | Except.error e =>
      ([DisposeStep.configuration, DisposeStep.languageFeatures], Except.error e)
    | Except.ok _ =>
      match b.commands with
      | Except.error e =>
        ([DisposeStep.configuration, DisposeStep.languageFeatures, DisposeStep.commands],
          Except.error e)
      | Except.ok _ =>
        match b.workspace with
        | Except.error e =>
          ([DisposeStep.configuration, DisposeStep.languageFeatures, DisposeStep.commands,
            DisposeStep.workspace], Except.error e)
        | Except.ok _ =>
          match b.window with
          | Except.error e =>
            ([DisposeStep.configuration, DisposeStep.languageFeatures, DisposeStep.commands,
              DisposeStep.workspace, DisposeStep.window], Except.error e)
          | Except.ok _ =>
            let subs := runForEach DisposeStep.subscription b.subscriptions 0
            match subs.2 with
            | Except.error e =>
              ([DisposeStep.configuration, DisposeStep.languageFeatures, DisposeStep.commands,
                DisposeStep.workspace, DisposeStep.window] ++ subs.1, Except.error e)
            | Except.ok _ =>
              let fsd := runForEach DisposeStep.fsProviderDisposable b.fsProviderDisposables 0
              ([DisposeStep.configuration, DisposeStep.languageFeatures, DisposeStep.commands,
                DisposeStep.workspace, DisposeStep.window] ++ subs.1 ++ fsd.1, fsd.2)

/-- The full ordered list of disposal steps with their outcomes, as the
claim's fixed order lists them. -/
def disposeOutcomes (b : DisposeBehavior) : List (DisposeStep × Except JSErr Unit) :=
  [(DisposeStep.configuration, b.configuration),
   (DisposeStep.languageFeatures, b.languageFeatures),
   (DisposeStep.commands, b.commands),
   (DisposeStep.workspace, b.workspace),
   (DisposeStep.window, b.window)] ++
  (b.subscriptions.enum.map (fun q => (DisposeStep.subscription q.1, q.2))) ++
  (b.fsProviderDisposables.enum.map (fun q => (DisposeStep.fsProviderDisposable q.1, q.2)))

/-- Sequential execution of tagged outcomes that stops at the first error —
the semantics of an unprotected sequence of calls. -/
def seqDispose : List (DisposeStep × Except JSErr Unit) → List DisposeStep × Except JSErr Unit
  | [] => ([], Except.ok ())
  | (s, o) :: rest =>
    match o with
    | Except.error e => ([s], Except.error e)
    | Except.ok _ =>
      let r := seqDispose rest
      (s :: r.1, r.2)

/-- `seqDispose` over a concatenation whose first part succeeds: the second
part runs after it. -/
theorem seqDispose_append_ok (xs ys : List (DisposeStep × Except JSErr Unit))
    (h : (seqDispose xs).2 = Except.ok ()) :
    seqDispose (xs ++ ys) = ((seqDispose xs).1 ++ (seqDispose ys).1, (seqDispose ys).2) := by
  induction xs with
  | nil => simp [seqDispose]
  | cons x rest ih =>
    obtain ⟨s, o⟩ := x
    cases o with
    | error e => simp [seqDispose] at h
    | ok _ =>
      simp only [seqDispose] at h
      simp only [List.cons_append, seqDispose, List.append_eq, ih h]

/-- `seqDispose` over a concatenation whose first part fails: the second part
never runs. -/
theorem seqDispose_append_error (xs ys : List (DisposeStep × Except JSErr Unit)) (e : JSErr)
    (h : (seqDispose xs).2 = Except.error e) :
    seqDispose (xs ++ ys) = seqDispose xs := by
  induction xs with
  | nil => simp [seqDispose] at h
  | cons x rest ih =>
    obtain ⟨s, o⟩ := x
    cases o with
    | error e2 => simp [seqDispose]
    | ok _ =>
      simp only [seqDispose] at h
      simp only [List.cons_append, seqDispose, List.append_eq, ih h]

/-- `runForEach` agrees with `seqDispose` over the outcomes enumerated from
the same start index. -/
theorem runForEach_eq_seqDispose (tag : Nat → DisposeStep) :
    ∀ (l : List (Except JSErr Unit)) (i : Nat),
      runForEach tag l i =
        seqDispose ((List.enumFrom i l).map (fun q => (tag q.1, q.2))) := by
  intro l
  induction l with
  | nil => intro i; rfl
  | cons o rest ih =>
    intro i
    cases o with
    | error e => simp [runForEach, List.enumFrom, seqDispose]
    | ok _ => simp [runForEach, List.enumFrom, seqDispose, ih (i + 1)]

/-- C2 counterexample: a bundle whose configuration disposal throws. The
`dispose` closure invokes only that first step: the workspace disposal (and
every later step) is never attempted, so a failing step does prevent the
later steps from running. -/
theorem dispose_aborts_on_first_throw :
    runDispose
        { configuration := Except.error { name := "Error", message := "boom", code := none },
          languageFeatures := Except.ok (), commands := Except.ok (),
          workspace := Except.ok (), window := Except.ok (),
          subscriptions := [Except.ok ()], fsProviderDisposables := [Except.ok ()] } =
      ([DisposeStep.configuration],
        Except.error { name := "Error", message := "boom", code := none }) ∧
    DisposeStep.workspace ∉
      (runDispose
        { configuration := Except.error { name := "Error", message := "boom", code := none },
          languageFeatures := Except.ok (), commands := Except.ok (),
          workspace := Except.ok (), window := Except.ok (),
          subscriptions := [Except.ok ()], fsProviderDisposables := [Except.ok ()] }).1 := by
  refine ⟨rfl, by decide⟩

/-- C2 (amended): `dispose()` attempts the listed disposal steps in the fixed
order — configuration, language features, commands, workspace, window, each
context subscription, then the filesystem-provider registrations — but the
sequence is unprotected: it runs each step only while all earlier steps
succeeded, and stops with the first thrown error (all steps are attempted
exactly when no step throws). -/
theorem runDispose_eq_seqDispose (b : DisposeBehavior) :
    runDispose b = seqDispose (disposeOutcomes b) := by
  obtain ⟨c, lf, cm, ws, wn, subs, fsd⟩ := b
  cases c with
  | error e => simp [runDispose, disposeOutcomes, seqDispose]
  | ok uc =>
  cases uc
  cases lf with
  | error e => simp [runDispose, disposeOutcomes, seqDispose]
  | ok ulf =>
  cases ulf
  cases cm with
  | error e => simp [runDispose, disposeOutcomes, seqDispose]
  | ok ucm =>
  cases ucm
  cases ws with
  | error e => simp [runDispose, disposeOutcomes, seqDispose]
  | ok uws =>
  cases uws
  cases wn with
  | error e => simp [runDispose, disposeOutcomes, seqDispose]
  | ok uwn =>
  cases uwn
  have hsub := runForEach_eq_seqDispose DisposeStep.subscription subs 0
  have hfsd := runForEach_eq_seqDispose DisposeStep.fsProviderDisposable fsd 0
  cases hS : seqDispose ((List.enumFrom 0 subs).map
      (fun q => (DisposeStep.subscription q.1, q.2))) with
  | mk ssteps sr =>
    have hL5 : seqDispose
        [(DisposeStep.configuration, Except.ok ()),
         (DisposeStep.languageFeatures, Except.ok ()),
         (DisposeStep.commands, Except.ok ()),
         (DisposeStep.workspace, Except.ok ()),
         (DisposeStep.window, Except.ok ())] =
        ([DisposeStep.configuration, DisposeStep.languageFeatures, DisposeStep.commands,
          DisposeStep.workspace, DisposeStep.window], Except.ok ()) := rfl
    cases sr with
    | error e =>
      have hAB : seqDispose
          ([(DisposeStep.configuration, Except.ok ()),
            (DisposeStep.languageFeatures, Except.ok ()),
            (DisposeStep.commands, Except.ok ()),
            (DisposeStep.workspace, Except.ok ()),
            (DisposeStep.window, Except.ok ())] ++
            (List.enumFrom 0 subs).map (fun q => (DisposeStep.subscription q.1, q.2))) =
          ([DisposeStep.configuration, DisposeStep.languageFeatures, DisposeStep.commands,
            DisposeStep.workspace, DisposeStep.window] ++ ssteps, Except.error e) := by
        rw [seqDispose_append_ok _ _ (by rw [hL5]), hL5, hS]
      simp only [disposeOutcomes, List.enum]
      rw [seqDispose_append_error _ _ e (by rw [hAB]), hAB]
      simp [runDispose, hsub, hS]
    | ok su =>
      cases su
      have hAB : seqDispose
          ([(DisposeStep.configuration, Except.ok ()),
            (DisposeStep.languageFeatures, Except.ok ()),
            (DisposeStep.commands, Except.ok ()),
            (DisposeStep.workspace, Except.ok ()),
            (DisposeStep.window, Except.ok ())] ++
            (List.enumFrom 0 subs).map (fun q => (DisposeStep.subscription q.1, q.2))) =
          ([DisposeStep.configuration, DisposeStep.languageFeatures, DisposeStep.commands,
            DisposeStep.workspace, DisposeStep.window] ++ ssteps, Except.ok ()) := by
        rw [seqDispose_append_ok _ _ (by rw [hL5]), hL5, hS]
      simp only [disposeOutcomes, List.enum]
      rw [seqDispose_append_ok _ _ (by rw [hAB]), hAB]
      simp [runDispose, hsub, hfsd, hS]

/-- Replace the first occurrence of the pattern in the list, as JavaScript
`String.prototype.replace` with a string pattern does. -/
def replaceFirstList (pat repl : List Char) : List Char → List Char
  | [] => []
  | c :: rest =>
    if pat.isPrefixOf (c :: rest) then repl ++ (c :: rest).drop pat.length
    else c :: replaceFirstList pat repl rest

/-- JavaScript `s.replace(pat, repl)` for a string pattern: first occurrence
only. -/
def replaceFirst (s pat repl : String) : String :=
  ⟨replaceFirstList pat.data repl.data s.data⟩

/-- `fetchFileSystemProvider` from the browser branch of
`initializeShimServices` (`shims/index.ts`): it implements only `readFile`
(a network fetch of the URI string with `/dist/browser/` collapsed to `/`)
and a fake `stat` reporting a plain file; `writeFile` and `createDirectory`
are absent on the object, and invoking an absent method in JavaScript throws
a `TypeError`, modelled as a plain error value. -/
def fetchFileSystemProvider (fetch : String → Except JSErr (List Nat)) : FsProvider where
  readFile := fun uri => fetch (replaceFirst (uriToString uri) "/dist/browser/" "/")
  writeFile := fun _ _ _ _ =>
    Except.error { name := "TypeError", message := "not a function", code := none }
  stat := fun _ => Except.ok ⟨FileType.File, 0, 0, 0, none⟩
  createDirectory := fun _ =>
    Except.error { name := "TypeError", message := "not a function", code := none }

/-- Modelled from the spec: `WorkspaceShimService.registerFileSystemProvider`
is defined in `workspace.ts`, which is not among the provided sources. Per
§4.2 the workspace service owns the router and
`registerProvider(scheme, backend, options) -> DisposalHandle` is the
router-level registration, so the workspace method forwards scheme, backend
and options unchanged to the router's `_addFileSystemProvider`. -/
def registerFileSystemProvider (reg : FsRegistry FsProvider) (scheme : String)
    (provider : FsProvider) (options : Option Bool) : FsRegistry FsProvider × Except JSErr String :=
  addFileSystemProvider reg scheme provider options

/-- The filesystem-provider registration side effect of
`initializeShimServices` (`shims/index.ts`, browser branch): when the
execution mode is sandboxed/browser (`process.env.BROWSER_ENV`), register
`fetchFileSystemProvider` for scheme `http` and again for scheme `https`,
each with empty options `{}` (hence no `isReadonly` flag), pushing the two
disposal handles onto the `FsProviderDisposables` list that is kept apart
from the returned service bundle; otherwise register nothing. -/
def initFsProviderRegistrations (browserEnv : Bool)
    (fetch : String → Except JSErr (List Nat)) (reg : FsRegistry FsProvider) :
    Except JSErr (FsRegistry FsProvider × List String) :=
  if browserEnv then
    let r1 := registerFileSystemProvider reg "http" (fetchFileSystemProvider fetch) none
    match r1.2 with
    | Except.error e => Except.error e
    | Except.ok h1 =>
      let r2 := registerFileSystemProvider r1.1 "https" (fetchFileSystemProvider fetch) none
      match r2.2 with
      | Except.error e => Except.error e
      | Except.ok h2 => Except.ok (r2.1, [h1, h2])
  else
    Except.ok (reg, [])

/-- C9 counterexample: in browser mode the two network-fetch backends are
registered with empty options, so the router records them as writable:
`isWritableFileSystem` answers `some true` for both `http` and `https`. A
read-only registration would make it answer `some false`, so the claim that
the two backends are registered read-only is false. -/
theorem initFsProviderRegistrations_not_readonly :
    (initFsProviderRegistrations true (fun _ => Except.ok []) []).toOption.map
        (fun r => (isWritableFileSystem r.1 "http", isWritableFileSystem r.1 "https", r.2)) =
      some (some true, some true, ["http", "https"]) := rfl

/-- C9 (amended): in the sandboxed/browser execution mode,
`initializeShimServices` registers the network-fetch backend for scheme
`http` and for scheme `https` into the workspace's filesystem router and
records the two disposal handles in the separate `FsProviderDisposables`
list (disposed after the main service steps, see the disposal model) — but
the registrations are made with empty options, so they are recorded as
writable (`isReadonly = false`), not read-only. -/
theorem initFsProviderRegistrations_spec (fetch : String → Except JSErr (List Nat)) :
    (initFsProviderRegistrations true fetch []).toOption.map
        (fun r => (regHas r.1 "http", regHas r.1 "https",
          isWritableFileSystem r.1 "http", isWritableFileSystem r.1 "https", r.2)) =
      some (true, true, some true, some true, ["http", "https"]) := rfl

end Vtsls
